import Mathlib

/-!
# Verification of the duck-lox scanner (`src/scanner/utils.rs`)

Shallow embedding of the lexical scanner of the duck-lox repository.

Modelling conventions:
* The Rust byte offsets `start`/`current` are modelled as character
  indices over `source : List Char`; `advance` in the source moves
  `current` by `len_utf8` of the consumed character, which at the
  character level is one position.  All inputs used in concrete
  theorems are ASCII, where the two views coincide exactly.
* Fallible operations return `ScanRes`: `panic` models a Rust panic
  (a failed `unwrap`, or an out-of-bounds / underflowing index) and
  `fuelOut` models running out of fuel — every loop of the source is
  written fuel-indexed, so a run that never terminates is the statement
  `∀ fuel, … = .fuelOut`.
* `peek` returns `Option Char` as in the source; its `None` arms in the
  source (`while let`, `if let`) are modelled exactly as the source
  handles them.  `peek` never actually returns `none` because the
  sentinel branch fires first (proved below).  `peek_next`'s `none`
  models the panic of `chars().next().unwrap()` on an empty remainder,
  which, unlike `peek`, is reachable.
* The `print!` of a Comment lexeme writes to stdout, not to the
  diagnostic sink, and is not modelled.  The local accumulator `s` of
  the string loop is written but never read in the source and is
  omitted.
-/

/-- Token categories of the scanner (`TokenType` in the source). -/
inductive TokenType where
  | LeftParen | RightParen | LeftBrace | RightBrace
  | Dot | Number | Minus | Star | Plus | Modulus | Divide
  | Comment | Semicolon | Comma
  | BangEqual | Bang | EqualEqual | Equal
  | LessEqual | Less | GreaterEqual | Greater
  | String | Identifier
  | Var | Fun | Return | If | Else | For | While | Print
  | Break | Continue | Class | This | True | False | Nil
  | Or | And | Super
  | Eof
deriving DecidableEq

/-- Literal-kind tag attached to each token (`Literal` in the source). -/
inductive Literal where
  | Number | String | Boolean | Nil
deriving DecidableEq

/-- A scanned token.  `Token::new(token_type, lexeme, literal, line, column)`. -/
structure Token where
  ttype : TokenType
  lexeme : String
  literal : Literal
  line : Nat
  column : Nat
deriving DecidableEq

/-- Severity of a diagnostic.  The scanner only ever emits
`Log::Error(LoxError::CompileError(CompilerError::SyntaxError))` and
`Log::Info`, so two constructors suffice. -/
inductive Severity where
  | error
  | info
deriving DecidableEq

/-- One call to the diagnostic sink `log_language(log, message, position)`. -/
structure LogEntry where
  severity : Severity
  message : String
  position : String
deriving DecidableEq

/-- The driver object threaded by `&mut` through the scan
(`Lox` in the source): the shared error flag plus the diagnostic sink,
modelled as the list of emitted log entries. -/
structure Lox where
  has_error : Bool
  logs : List LogEntry
deriving DecidableEq

/-- `lox.log_language(log, msg, pos)`: append one diagnostic. -/
def log_language (lox : Lox) (sev : Severity) (msg pos : String) : Lox :=
  { lox with logs := lox.logs ++ [{ severity := sev, message := msg, position := pos }] }

/-- The scanner state (`Scanner` in the source): the source text, the
`start`/`current` cursor offsets, the human-readable position, and the
accumulated token vector. -/
structure ScanState where
  source : List Char
  start : Nat
  current : Nat
  line : Nat
  column : Nat
  tokens : List Token
deriving DecidableEq

/-- Result of a fuel-indexed run: a value, a Rust panic, or fuel exhaustion. -/
inductive ScanRes (α : Type) where
  | ok : α → ScanRes α
  | panic : ScanRes α
  | fuelOut : ScanRes α
deriving DecidableEq

/-- The single-quote character, kept out of literal position. -/
def squote : Char := Char.ofNat 39

/-- The backquote character, kept out of literal position. -/
def backquote : Char := Char.ofNat 96

/-- `fn is_at_end(&self) -> bool { self.current >= self.source.len() }` -/
def is_at_end (st : ScanState) : Bool :=
  st.source.length ≤ st.current

/-- `fn peek(&self) -> Option<char>`: sentinel `'\0'` at end of input,
otherwise the character at `current`.  The inner `unwrap` cannot fail
(`current < len`), so `none` is unreachable (proved in `peek_total`). -/
def peek (st : ScanState) : Option Char :=
  if is_at_end st then some '\x00'
  else st.source.get? st.current

/-- `fn peek_next(&self) -> Option<char>`: sentinel `'\0'` when
`is_at_end`, otherwise the character at `current + 1`.  `none` models the
panic of `chars().next().unwrap()` when `current + 1` is past the last
character while `current` itself is still in bounds. -/
def peek_next (st : ScanState) : Option Char :=
  if is_at_end st then some '\x00'
  else st.source.get? (st.current + 1)

/-- `fn match_char(&mut self, expected) -> bool`: compares the character at
`current` (not yet consumed) against `expected`; never advances. -/
def match_char (expected : Char) (st : ScanState) : Bool :=
  if is_at_end st then false
  else st.source.getD st.current '\x00' == expected

/-- `fn advance(&mut self) -> char`: at end of input returns `'\0'` and
leaves the state unchanged; otherwise consumes one character, moving
`current` forward and incrementing `column`. -/
def advance (st : ScanState) : Char × ScanState :=
  if is_at_end st then ('\x00', st)
  else (st.source.getD st.current '\x00',
        { st with current := st.current + 1, column := st.column + 1 })

/-- `fn current_lexeme(&mut self) -> &str`: the slice `source[start..current]`. -/
def current_lexeme (st : ScanState) : String :=
  String.mk ((st.source.drop st.start).take (st.current - st.start))

/-- `fn get_literal_type(token_type) -> Literal`. -/
def get_literal_type (token_type : TokenType) : Literal :=
  match token_type with
  | TokenType.Number => Literal.Number
  | TokenType.String => Literal.String
  | TokenType.True => Literal.Boolean
  | TokenType.False => Literal.Boolean
  | _ => Literal.Nil

/-- `fn add_token(&mut self, token_type, lexeme)`: push a token carrying the
current line and `column + 1`. -/
def add_token (token_type : TokenType) (lexeme : String) (st : ScanState) : ScanState :=
  { st with tokens := st.tokens ++
      [{ ttype := token_type, lexeme := lexeme,
         literal := get_literal_type token_type,
         line := st.line, column := st.column + 1 }] }

/-- The digit loop of the leading-dot branch (source lines 40–46):
consume characters while they are ASCII digits. -/
def dot_digits_loop : Nat → ScanState → ScanRes ScanState
  | 0, _ => .fuelOut
  | fuel + 1, st =>
    match peek st with
    | none => .ok st
    | some ch =>
      if ch.isDigit then dot_digits_loop fuel (advance st).2
      else .ok st

/-- The skip-to-newline loop (source lines 64–69, and the identical loop at
lines 114–119 of the semicolon branch): consume until `peek` is a newline.
At end of input `peek` yields the sentinel `'\0'`, never `'\n'`, and
`advance` no longer moves `current`, so this loop can spin forever. -/
def line_comment_loop : Nat → ScanState → ScanRes ScanState
  | 0, _ => .fuelOut
  | fuel + 1, st =>
    match peek st with
    | none => .ok st
    | some ch =>
      if ch = '\n' then .ok st
      else line_comment_loop fuel (advance st).2

/-- The multi-line comment loop (source lines 73–85): stop on `*/`
(consuming both characters) or at end of input; bump `line` and reset
`column` on each consumed newline.  Calls `peek_next`, which can panic. -/
def multi_comment_loop : Nat → ScanState → ScanRes ScanState
  | 0, _ => .fuelOut
  | fuel + 1, st =>
    if is_at_end st then .ok st
    else if peek st = some '*' then
      match peek_next st with
      | none => .panic
      | some c2 =>
        if c2 = '/' then .ok (advance (advance st).2).2
        else
          let a := advance st
          multi_comment_loop fuel
            (if a.1 = '\n' then { a.2 with line := a.2.line + 1, column := 0 } else a.2)
    else
      let a := advance st
      multi_comment_loop fuel
        (if a.1 = '\n' then { a.2 with line := a.2.line + 1, column := 0 } else a.2)

/-- The string-literal loop (source lines 186–205): newlines bump `line`
(without resetting `column`, which `advance` keeps incrementing); any of
the three quote characters is consumed and closes the literal; reaching
the end of input sets the driver's error flag and exits. -/
def string_loop : Nat → ScanState → Lox → ScanRes (ScanState × Lox)
  | 0, _, _ => .fuelOut
  | fuel + 1, st, lox =>
    match peek st with
    | none => .ok (st, lox)
    | some next =>
      if is_at_end st then .ok (st, { lox with has_error := true })
      else if next = '\n' then
        string_loop fuel (advance { st with line := st.line + 1 }).2 lox
      else if next = '"' ∨ next = squote ∨ next = backquote then
        .ok ((advance st).2, lox)
      else string_loop fuel (advance st).2 lox

/-- The loop of `fn tokenize_number` (source lines 283–296): consume while
the next character is a digit, or — via `match_char('.')` — a decimal
point.  Nothing limits the number of decimal points consumed. -/
def tokenize_number : Nat → ScanState → ScanRes ScanState
  | 0, _ => .fuelOut
  | fuel + 1, st =>
    match peek st with
    | none => .ok st
    | some c =>
      if c.isDigit then tokenize_number fuel (advance st).2
      else if match_char '.' st then tokenize_number fuel (advance st).2
      else .ok st

/-- The loop of `fn tokenize_identifier` (source lines 316–322): consume
alphanumerics and underscores (maximal munch). -/
def tokenize_identifier_loop : Nat → ScanState → ScanRes ScanState
  | 0, _ => .fuelOut
  | fuel + 1, st =>
    match peek st with
    | none => .ok st
    | some c =>
      if c.isAlphanum ∨ c = '_' then tokenize_identifier_loop fuel (advance st).2
      else .ok st

/-- The keyword table of `fn tokenize_identifier` (source lines 327–347). -/
def keyword_of (identifier : String) : TokenType :=
  if identifier = "var" then TokenType.Var
  else if identifier = "fun" then TokenType.Fun
  else if identifier = "return" then TokenType.Return
  else if identifier = "if" then TokenType.If
  else if identifier = "else" then TokenType.Else
  else if identifier = "for" then TokenType.For
  else if identifier = "while" then TokenType.While
  else if identifier = "print" then TokenType.Print
  else if identifier = "break" then TokenType.Break
  else if identifier = "continue" then TokenType.Continue
  else if identifier = "class" then TokenType.Class
  else if identifier = "this" then TokenType.This
  else if identifier = "true" then TokenType.True
  else if identifier = "false" then TokenType.False
  else if identifier = "nil" then TokenType.Nil
  else if identifier = "or" then TokenType.Or
  else if identifier = "and" then TokenType.And
  else if identifier = "super" then TokenType.Super
  else TokenType.Identifier

/-- The Number-lexeme normalization of the emission step (source lines
261–273): a lexeme ending in `'.'` keeps only `split('.').nth(0)` — the
prefix before the first dot; a lexeme starting with `'.'` gets a leading
`"0"`; anything else is unchanged. -/
def normalize_number (lexeme : String) : String :=
  if lexeme.data.getLast? = some '.'
  then String.mk (lexeme.data.takeWhile (fun c => c ≠ '.'))
  else if lexeme.data.head? = some '.'
  then String.mk ('0' :: lexeme.data)
  else lexeme

/-- The message of the string error diagnostic (source lines 211–214). -/
def string_error_msg (c : Char) : String :=
  "Unexpected character: `" ++ String.mk [c] ++ "` String must have pairs of `"
    ++ String.mk [c] ++ "`"

/-- The `"{line}:{column}"` position string used by the semicolon branch. -/
def pos_plain (line column : Nat) : String :=
  Nat.repr line ++ ":" ++ Nat.repr column

/-- The `"line: {a}:{b}"` position string used by the other diagnostics. -/
def pos_line (a b : Nat) : String :=
  "line: " ++ Nat.repr a ++ ":" ++ Nat.repr b

/-- The character-dispatch of the main scan loop (the big `match c` of
`fn scan_tokens`, source lines 27–246).  Returns the `token_type`
option together with the updated scanner and driver state. -/
def dispatch (fuel : Nat) (c : Char) (st : ScanState) (lox : Lox) :
    ScanRes (Option TokenType × ScanState × Lox) :=
  if c = '(' then .ok (some TokenType.LeftParen, st, lox)
  else if c = ')' then .ok (some TokenType.RightParen, st, lox)
  else if c = '{' then .ok (some TokenType.LeftBrace, st, lox)
  else if c = '}' then .ok (some TokenType.RightBrace, st, lox)
  else if c = '.' then
    match peek st with
    | some ch =>
      if ch.isDigit then
        match dot_digits_loop fuel (advance st).2 with
        | .ok st => .ok (some TokenType.Number, st, lox)
        | .panic => .panic
        | .fuelOut => .fuelOut
      else .ok (some TokenType.Dot, st, lox)
    | none => .ok (some TokenType.Number, st, lox)
  else if c = '-' then .ok (some TokenType.Minus, st, lox)
  else if c = '*' then .ok (some TokenType.Star, st, lox)
  else if c = '+' then .ok (some TokenType.Plus, st, lox)
  else if c = '%' then .ok (some TokenType.Modulus, st, lox)
  else if c = '/' then
    if match_char '/' st then
      match line_comment_loop fuel st with
      | .ok st => .ok (some TokenType.Comment, st, lox)
      | .panic => .panic
      | .fuelOut => .fuelOut
    else if match_char '*' st then
      match multi_comment_loop fuel st with
      | .ok st =>
        if is_at_end st then
          .ok (some TokenType.Comment, st,
            log_language { lox with has_error := true } Severity.error
              "Unterminated multi-line comment" (pos_line st.line st.column))
        else .ok (some TokenType.Comment, st, lox)
      | .panic => .panic
      | .fuelOut => .fuelOut
    else .ok (some TokenType.Divide, st, lox)
  else if c = ';' then
    if match_char '\n' st then
      -- `self.tokens[self.tokens.len() - 1]` panics on an empty vector
      match st.tokens.getLast? with
      | none => .panic
      | some t =>
        if t.lexeme = ";" then
          let snippet := String.mk ((st.source.drop st.current).takeWhile (fun ch => ch ≠ '\n'))
          match line_comment_loop fuel st with
          | .ok st =>
            .ok (none, st,
              log_language
                (log_language { lox with has_error := true } Severity.error
                  ("Expect ';' after expression. Found ';" ++ snippet ++ "' instead.")
                  (pos_plain st.line st.column))
                Severity.info
                "Please make sure the end of your expression is followed by a single semicolon."
                (pos_plain st.line st.column))
          | .panic => .panic
          | .fuelOut => .fuelOut
        else .ok (some TokenType.Semicolon, st, lox)
    else .ok (some TokenType.Semicolon, st, lox)
  else if c = ',' then .ok (some TokenType.Comma, st, lox)
  else if c = '!' then
    if match_char '=' st then .ok (some TokenType.BangEqual, { st with current := st.current + 1 }, lox)
    else .ok (some TokenType.Bang, st, lox)
  else if c = '=' then
    if match_char '=' st then .ok (some TokenType.EqualEqual, { st with current := st.current + 1 }, lox)
    else .ok (some TokenType.Equal, st, lox)
  else if c = '<' then
    if match_char '=' st then .ok (some TokenType.LessEqual, { st with current := st.current + 1 }, lox)
    else .ok (some TokenType.Less, st, lox)
  else if c = '>' then
    if match_char '=' st then .ok (some TokenType.GreaterEqual, { st with current := st.current + 1 }, lox)
    else .ok (some TokenType.Greater, st, lox)
  else if c = ' ' ∨ c = '\r' ∨ c = '\t' then .ok (none, st, lox)
  else if c = '"' ∨ c = squote ∨ c = backquote then
    match string_loop fuel st lox with
    | .ok (st, lox) =>
      if lox.has_error then
        .ok (none, st,
          log_language lox Severity.error (string_error_msg c)
            (pos_line (st.line - 1) (st.column + 1)))
      else .ok (some TokenType.String, st, lox)
    | .panic => .panic
    | .fuelOut => .fuelOut
  else if c = '\n' then
    .ok (none, { st with line := st.line + 1, column := 0 }, lox)
  else if (('a' ≤ c ∧ c ≤ 'z') ∨ ('A' ≤ c ∧ c ≤ 'Z') ∨ c = '_') then
    match tokenize_identifier_loop fuel st with
    | .ok st => .ok (some (keyword_of (current_lexeme st)), st, lox)
    | .panic => .panic
    | .fuelOut => .fuelOut
  else if ('0' ≤ c ∧ c ≤ '9') then
    match tokenize_number fuel st with
    | .ok st => .ok (some TokenType.Number, st, lox)
    | .panic => .panic
    | .fuelOut => .fuelOut
  else
    .ok (none, st,
      log_language { lox with has_error := true } Severity.error
        ("Unexpected character: " ++ String.mk [c])
        (pos_line st.line (st.column + 1)))

/-- One iteration of the main scan loop (source lines 23–277): record
`start`, consume one character, dispatch on it, and run the emission step
(lines 249–276): Comment tokens are dropped, String lexemes are stripped
of their first and last character, Number lexemes are normalized. -/
def scan_step (fuel : Nat) (st0 : ScanState) (lox : Lox) : ScanRes (ScanState × Lox) :=
  let a := advance { st0 with start := st0.current }
  match dispatch fuel a.1 a.2 lox with
  | .panic => .panic
  | .fuelOut => .fuelOut
  | .ok (none, st, lox) => .ok (st, lox)
  | .ok (some ttype, st, lox) =>
    let lexeme := current_lexeme st
    match ttype with
    | TokenType.Comment => .ok (st, lox)
    | TokenType.String =>
      .ok (add_token TokenType.String (String.mk (lexeme.data.drop 1).dropLast) st, lox)
    | TokenType.Number =>
      .ok (add_token TokenType.Number (normalize_number lexeme) st, lox)
    | _ => .ok (add_token ttype lexeme st, lox)

/-- `fn scan_tokens(&mut self, lox: &mut Lox)`: run the main loop while
`current < len(source)`, then append the Eof token. -/
def scan_tokens : Nat → ScanState → Lox → ScanRes (ScanState × Lox)
  | 0, _, _ => .fuelOut
  | fuel + 1, st, lox =>
    if is_at_end st then .ok (add_token TokenType.Eof "EOF" st, lox)
    else
      match scan_step fuel st lox with
      | .ok (st, lox) => scan_tokens fuel st lox
      | .panic => .panic
      | .fuelOut => .fuelOut

/-- Modelled from the spec: the initial `Scanner` state.  The `Scanner`
struct's constructor is not among the provided sources; the spec fixes
offsets starting at the beginning of the text, a 1-based `line` (the first
token of `"a\nb"` reports line 1) and a `column` that "resets to 0" on
newlines, with an empty token vector. -/
def initState (src : List Char) : ScanState :=
  { source := src, start := 0, current := 0, line := 1, column := 0, tokens := [] }

/-- Modelled from the spec: a fresh driver — no error recorded, no
diagnostics emitted yet. -/
def initLox : Lox :=
  { has_error := false, logs := [] }

/-- Run a complete scan of `src` from the initial state with ample fuel. -/
def runScan (src : List Char) : ScanRes (ScanState × Lox) :=
  scan_tokens (2 * src.length + 10) (initState src) initLox

/-- The (kind, lexeme) view of a completed scan's token sequence. -/
def scanLexemes (src : List Char) : Option (List (TokenType × String)) :=
  match runScan src with
  | .ok (st, _) => some (st.tokens.map (fun t => (t.ttype, t.lexeme)))
  | _ => none

/-- The driver's error flag after a completed scan. -/
def scanError (src : List Char) : Option Bool :=
  match runScan src with
  | .ok (_, lox) => some lox.has_error
  | _ => none

/-- The (lexeme, line, column) view of a completed scan's token sequence. -/
def scanPositions (src : List Char) : Option (List (String × Nat × Nat)) :=
  match runScan src with
  | .ok (st, _) => some (st.tokens.map (fun t => (t.lexeme, t.line, t.column)))
  | _ => none

/-- The cursor's final (line, column) after a completed scan. -/
def finalCursor (src : List Char) : Option (Nat × Nat) :=
  match runScan src with
  | .ok (st, _) => some (st.line, st.column)
  | _ => none

/-- Concrete mid-scan state used by witnesses: a newline at the cursor. -/
def nlSt : ScanState :=
  { source := ['\n'], start := 0, current := 0, line := 1, column := 0, tokens := [] }

/-- Concrete token used by witnesses: an emitted semicolon. -/
def semiTok : Token :=
  { ttype := TokenType.Semicolon, lexeme := ";", literal := Literal.Nil, line := 1, column := 2 }

/-- Concrete mid-scan state used by witnesses: a second `;` at the cursor,
a newline after it, and a previously emitted semicolon token. -/
def semiSt : ScanState :=
  { source := [';', ';', '\n'], start := 0, current := 1, line := 1, column := 1,
    tokens := [semiTok] }

/-- Concrete driver with the error flag already raised, used by witnesses. -/
def loxT : Lox := { has_error := true, logs := [] }

/-- The exact state a scan of `"a"` reaches starting from a raised error
flag, used by the witness of the flag-monotonicity theorem. -/
def stA : ScanState :=
  { source := ['a'], start := 0, current := 1, line := 1, column := 1,
    tokens :=
      [{ ttype := TokenType.Identifier, lexeme := "a", literal := Literal.Nil,
         line := 1, column := 2 },
       { ttype := TokenType.Eof, lexeme := "EOF", literal := Literal.Nil,
         line := 1, column := 2 }] }

theorem get?_eq_head_drop {α} (l : List α) (n : Nat) : l.get? n = (l.drop n).head? := by
  induction l generalizing n with
  | nil => simp
  | cons x xs ih =>
    cases n with
    | zero => simp
    | succ m => simp [ih m]

theorem drop_succ_eq_tail {α} (l : List α) (n : Nat) : l.drop (n + 1) = (l.drop n).tail := by
  induction l generalizing n with
  | nil => simp
  | cons x xs ih =>
    cases n with
    | zero => simp
    | succ m => rw [List.drop_succ_cons, List.drop_succ_cons]; exact ih m

theorem lt_length_of_drop_cons {α} {l : List α} {n : Nat} {a : α} {t : List α}
    (h : l.drop n = a :: t) : n < l.length := by
  by_contra hn
  push_neg at hn
  rw [List.drop_eq_nil_of_le hn] at h
  cases h

theorem lt_length_of_get? {α} {l : List α} {n : Nat} {a : α}
    (h : l.get? n = some a) : n < l.length := by
  rw [get?_eq_head_drop] at h
  rcases hd : l.drop n with _ | ⟨b, t⟩
  · rw [hd] at h; cases h
  · exact lt_length_of_drop_cons hd

theorem drop_cons_of_get? {α} {l : List α} {n : Nat} {a : α}
    (h : l.get? n = some a) : l.drop n = a :: l.drop (n + 1) := by
  rw [get?_eq_head_drop] at h
  rw [drop_succ_eq_tail]
  rcases hd : l.drop n with _ | ⟨b, t⟩
  · rw [hd] at h; cases h
  · rw [hd] at h; cases h; rfl

theorem log_language_has_error (lox : Lox) (sev : Severity) (msg pos : String) :
    (log_language lox sev msg pos).has_error = lox.has_error := rfl

theorem advance_at_end (st : ScanState) (h : is_at_end st = true) :
    advance st = ('\x00', st) := by
  unfold advance
  simp [h]

theorem peek_at_end (st : ScanState) (h : is_at_end st = true) :
    peek st = some '\x00' := by
  unfold peek
  simp [h]

theorem line_comment_loop_stuck (st : ScanState) (h : is_at_end st = true) :
    ∀ fuel, line_comment_loop fuel st = .fuelOut := by
  intro fuel
  induction fuel with
  | zero => rfl
  | succ f ih =>
    rw [line_comment_loop, peek_at_end st h, advance_at_end st h]
    simpa using ih

/-- C1: the claim says `scan_tokens` completes on every input with an
Eof-terminated token sequence.  The code instead panics on the two-character
input `";\n"`: after consuming the `;`, `match_char('\n')` succeeds, and
`self.tokens[self.tokens.len() - 1]` is evaluated with an *empty* token
vector, so `len() - 1` underflows and the indexing panics — no token
sequence (and no Eof) is ever produced. -/
theorem scan_panics_on_semicolon_newline :
    scan_tokens 10 (initState ";\n".data) initLox = ScanRes.panic := by decide

/-- The state reached after consuming the first `/` of the input `"//"`. -/
def stSlash : ScanState :=
  { source := ['/', '/'], start := 0, current := 1, line := 1, column := 1, tokens := [] }

/-- The `//` branch of the dispatch, as an equation usable under an
abstract fuel. -/
theorem dispatch_line_comment (fuel : Nat) (st : ScanState) (lox : Lox)
    (h : match_char '/' st = true) :
    dispatch fuel '/' st lox =
      match line_comment_loop fuel st with
      | .ok st => .ok (some TokenType.Comment, st, lox)
      | .panic => .panic
      | .fuelOut => .fuelOut := by
  unfold dispatch
  simp [h]

/-- Propagation of fuel exhaustion from the dispatch to one scan step. -/
theorem scan_step_fuelOut (fuel : Nat) (st0 : ScanState) (lox : Lox)
    (hd : dispatch fuel (advance { st0 with start := st0.current }).1
            (advance { st0 with start := st0.current }).2 lox = .fuelOut) :
    scan_step fuel st0 lox = .fuelOut := by
  unfold scan_step
  simp only [hd]

/-- C2: the claim says every internal loop of `scan_tokens` exits after
finitely many steps.  On the input `"//"` (a line comment not followed by a
newline) the single-line-comment loop never exits: at end of input `peek`
returns the sentinel `'\0'`, which is not `'\n'`, and `advance` no longer
moves `current`, so the loop state repeats forever.  Formally, the
fuel-indexed run exhausts every finite fuel. -/
theorem scan_diverges_on_line_comment_at_eof :
    ∀ fuel, scan_tokens fuel (initState ['/', '/']) initLox = ScanRes.fuelOut := by
  intro fuel
  cases fuel with
  | zero => rfl
  | succ f =>
    have hline : ∀ g, line_comment_loop g stSlash = ScanRes.fuelOut := by
      intro g
      cases g with
      | zero => rfl
      | succ g' =>
        rw [line_comment_loop]
        rw [show peek stSlash = some '/' from by decide]
        simp only [reduceIte]
        exact line_comment_loop_stuck _ (by decide) g'
    have hstep : scan_step f (initState ['/', '/']) initLox = ScanRes.fuelOut := by
      apply scan_step_fuelOut
      rw [show advance { (initState ['/', '/']) with
            start := (initState ['/', '/']).current } = ('/', stSlash) from by decide]
      rw [dispatch_line_comment f stSlash initLox (by decide)]
      rw [hline f]
    rw [scan_tokens]
    rw [show is_at_end (initState ['/', '/']) = false from by decide]
    simp only [Bool.false_eq_true, reduceIte, hstep]

/-- C8: the claim says `peek` and `peek_next` never fail, yielding the
sentinel nul out of bounds.  `peek` indeed never fails (third conjunct).
But `peek_next` only guards `current ≥ len`; when `current` sits on the
last character, it takes the remainder at `current + 1 = len` and calls
`chars().next().unwrap()` on an empty slice, which panics (second
conjunct; `none` is the model of that panic).  The scan of `"/*"` reaches
exactly that call through the multi-line-comment loop and aborts (first
conjunct). -/
theorem peek_next_panics_inside_bounds :
    scan_tokens 10 (initState "/*".data) initLox = ScanRes.panic
    ∧ peek_next { source := "/*".data, start := 0, current := 1, line := 1,
                  column := 1, tokens := [] } = none
    ∧ ∀ st : ScanState, (peek st).isSome = true := by
  refine ⟨by decide, by decide, ?_⟩
  intro st
  unfold peek
  split
  · rfl
  · rename_i h
    have hlt : st.current < st.source.length := by
      simp [is_at_end] at h
      exact h
    rcases hg : st.source.get? st.current with _ | c
    · rw [get?_eq_head_drop] at hg
      rw [List.head?_eq_none_iff] at hg
      rw [List.drop_eq_nil_iff] at hg
      omega
    · rfl

/-- C9: Number lexemes are normalized exactly as the claim states:
`"3."` scans to Number `"3"`, `".5"` to Number `"0.5"`, and `"3.14"`
stays `"3.14"`. -/
theorem number_lexeme_normalization :
    scanLexemes "3.".data = some [(TokenType.Number, "3"), (TokenType.Eof, "EOF")]
    ∧ scanLexemes ".5".data = some [(TokenType.Number, "0.5"), (TokenType.Eof, "EOF")]
    ∧ scanLexemes "3.14".data = some [(TokenType.Number, "3.14"), (TokenType.Eof, "EOF")] := by
  refine ⟨by decide, by decide, by decide⟩

/-- C3 counterexample: the claim says a string opened with `"` is consumed
until a closing `"`, and that a `'` inside does not terminate it — so
`"a'b"` (quote, a, single-quote, b, quote) should scan to the single
String token `a'b` with no error.  Instead the `'` closes the literal:
the scan yields String `"a"`, Identifier `"b"`, and a raised error flag
from the now-unterminated final quote. -/
theorem string_other_quote_terminates_cex :
    scanLexemes ['"', 'a', squote, 'b', '"']
      = some [(TokenType.String, "a"), (TokenType.Identifier, "b"), (TokenType.Eof, "EOF")]
    ∧ scanError ['"', 'a', squote, 'b', '"'] = some true := by
  refine ⟨by decide, by decide⟩

/-- C4 counterexample: the claim says a string literal terminated by its
closing quote always yields a String token, regardless of earlier lexical
errors.  In the input `@'a'` the `@` raises the error flag first; the
following string `'a'` is properly terminated, yet the scanner — which
tests the *shared* flag after the string loop — discards it and logs a
spurious string diagnostic: the result holds no String token at all. -/
theorem terminated_string_withheld_after_prior_error_cex :
    scanLexemes ['@', squote, 'a', squote] = some [(TokenType.Eof, "EOF")]
    ∧ scanError ['@', squote, 'a', squote] = some true := by
  refine ⟨by decide, by decide⟩

/-- C5 counterexample: the claim says at most one decimal point is consumed
per Number token, the first Number of `"1.2.3"` ending before the second
dot.  The number loop accepts a dot whenever `match_char('.')` succeeds,
however many came before: `"1.2.3"` scans as a single Number token whose
lexeme is the whole input. -/
theorem number_multiple_dots_cex :
    scanLexemes "1.2.3".data = some [(TokenType.Number, "1.2.3"), (TokenType.Eof, "EOF")] := by
  decide

/-- C6 counterexample: the claim says any semicolon-like sequence directly
following a previous semicolon is reported and the token suppressed.  The
code additionally requires the character *after* the second semicolon to
be a literal newline: on the input `";;"` both semicolons are emitted and
no error is raised. -/
theorem double_semicolon_no_newline_accepted_cex :
    scanLexemes [';', ';']
      = some [(TokenType.Semicolon, ";"), (TokenType.Semicolon, ";"), (TokenType.Eof, "EOF")]
    ∧ scanError [';', ';'] = some false := by
  refine ⟨by decide, by decide⟩

/-- C7 counterexample: the claim says every consumed newline — including
inside multi-line string literals — resets `column` to 0.  Scanning
`'a\nb'` (a string literal containing a newline), the newline bumps `line`
but `column` keeps counting: the cursor ends at column 5 and the String
token records column 6.  Had the column been reset at the newline, the
cursor would end at column 2 and the token would record column 3. -/
theorem string_newline_column_not_reset_cex :
    finalCursor [squote, 'a', '\n', 'b', squote] = some (2, 5)
    ∧ scanPositions [squote, 'a', '\n', 'b', squote]
        = some [("a\nb", 2, 6), ("EOF", 2, 6)] := by
  refine ⟨by decide, by decide⟩

theorem is_at_end_false_of_lt {st : ScanState} (h : st.current < st.source.length) :
    is_at_end st = false := by
  simp [is_at_end, decide_eq_false_iff_not]
  omega

theorem is_at_end_true_of_drop_nil {st : ScanState}
    (h : st.source.drop st.current = []) : is_at_end st = true := by
  simp [is_at_end]
  exact List.drop_eq_nil_iff.mp h

theorem peek_of_drop {st : ScanState} {c : Char} {t : List Char}
    (h : st.source.drop st.current = c :: t) : peek st = some c := by
  unfold peek
  rw [is_at_end_false_of_lt (lt_length_of_drop_cons h)]
  simp only [Bool.false_eq_true, reduceIte]
  rw [get?_eq_head_drop, h]
  rfl

theorem getD_of_drop {α} {l : List α} {n : Nat} {c : α} {t : List α} (d : α)
    (h : l.drop n = c :: t) : l.getD n d = c := by
  induction l generalizing n with
  | nil => simp at h
  | cons x xs ih =>
    cases n with
    | zero =>
      rw [List.drop_zero] at h
      cases h
      rfl
    | succ m =>
      have hm : xs.drop m = c :: t := by
        rw [List.drop_succ_cons] at h
        exact h
      rw [List.getD_cons_succ]
      exact ih hm

theorem advance_of_drop {st : ScanState} {c : Char} {t : List Char}
    (h : st.source.drop st.current = c :: t) :
    advance st = (c, { st with current := st.current + 1, column := st.column + 1 }) := by
  unfold advance
  rw [is_at_end_false_of_lt (lt_length_of_drop_cons h)]
  simp only [Bool.false_eq_true, reduceIte]
  rw [getD_of_drop '\x00' h]

theorem match_char_of_drop {st : ScanState} {c : Char} {t : List Char} (e : Char)
    (h : st.source.drop st.current = c :: t) : match_char e st = (c == e) := by
  unfold match_char
  rw [is_at_end_false_of_lt (lt_length_of_drop_cons h)]
  simp only [Bool.false_eq_true, reduceIte]
  rw [getD_of_drop '\x00' h]

theorem match_char_at_end {st : ScanState} (h : is_at_end st = true) (e : Char) :
    match_char e st = false := by
  unfold match_char
  rw [h]
  simp

theorem drop_advance {st : ScanState} {c : Char} {t : List Char}
    (h : st.source.drop st.current = c :: t) : st.source.drop (st.current + 1) = t := by
  rw [drop_succ_eq_tail, h]
  rfl

/-- C5 amended: `tokenize_number` consumes a maximal run of characters
each of which is an ASCII digit *or a decimal point* — nothing limits the
number of dots — and stops exactly at the first character that is
neither (or at end of input). -/
theorem number_consumes_digit_dot_run :
    ∀ (ds rest : List Char) (st : ScanState) (fuel : Nat),
      (∀ c ∈ ds, c.isDigit = true ∨ c = '.') →
      (∀ c ∈ rest.take 1, c.isDigit = false ∧ c ≠ '.') →
      st.source.drop st.current = ds ++ rest →
      ds.length + 1 ≤ fuel →
      tokenize_number fuel st =
        .ok { st with
              current := st.current + ds.length,
              column := st.column + ds.length } := by
  intro ds
  induction ds with
  | nil =>
    intro rest st fuel _ hrest hsrc hfuel
    cases fuel with
    | zero => omega
    | succ f =>
      rw [tokenize_number]
      rw [List.nil_append] at hsrc
      rcases rest with _ | ⟨c, t⟩
      · have hend := is_at_end_true_of_drop_nil hsrc
        rw [peek_at_end st hend]
        change (if ('\x00' : Char).isDigit = true then tokenize_number f (advance st).2
                else if match_char '.' st = true then tokenize_number f (advance st).2
                else ScanRes.ok st) = _
        rw [match_char_at_end hend '.']
        simp
      · rw [peek_of_drop hsrc]
        change (if c.isDigit = true then tokenize_number f (advance st).2
                else if match_char '.' st = true then tokenize_number f (advance st).2
                else ScanRes.ok st) = _
        obtain ⟨hd, hdot⟩ := hrest c (by simp)
        rw [hd]
        rw [match_char_of_drop '.' hsrc]
        have hb : (c == '.') = false := by simp [hdot]
        rw [hb]
        simp
  | cons c ds' ih =>
    intro rest st fuel hrun hrest hsrc hfuel
    cases fuel with
    | zero => simp at hfuel
    | succ f =>
      rw [tokenize_number]
      rw [List.cons_append] at hsrc
      rw [peek_of_drop hsrc]
      change (if c.isDigit = true then tokenize_number f (advance st).2
              else if match_char '.' st = true then tokenize_number f (advance st).2
              else ScanRes.ok st) = _
      rw [advance_of_drop hsrc]
      have hstep : tokenize_number f
          { st with current := st.current + 1, column := st.column + 1 } =
          ScanRes.ok
            { st with
              current := st.current + 1 + ds'.length,
              column := st.column + 1 + ds'.length } := by
        apply ih rest _ f (fun x hx => hrun x (List.mem_cons_of_mem c hx)) hrest
        · exact drop_advance hsrc
        · simp at hfuel
          omega
      have hcur : st.current + 1 + ds'.length = st.current + (c :: ds').length := by
        simp only [List.length_cons]
        omega
      have hcol : st.column + 1 + ds'.length = st.column + (c :: ds').length := by
        simp only [List.length_cons]
        omega
      rcases hrun c (List.mem_cons_self c ds') with hd | hdot
      · rw [hd]
        simp only [reduceIte]
        rw [hstep, hcur, hcol]
      · subst hdot
        rw [show ('.' : Char).isDigit = false from rfl]
        rw [match_char_of_drop '.' hsrc]
        rw [show (('.' : Char) == '.') = true from by decide]
        simp only [Bool.false_eq_true, reduceIte]
        rw [hstep, hcur, hcol]

theorem number_consumes_digit_dot_run_witness :
    tokenize_number 4
      { source := ['.', '.', '5', 'x'], start := 0, current := 0, line := 1,
        column := 0, tokens := [] } =
      ScanRes.ok
        { source := ['.', '.', '5', 'x'], start := 0, current := 3, line := 1,
          column := 3, tokens := [] } :=
  number_consumes_digit_dot_run ['.', '.', '5'] ['x']
    { source := ['.', '.', '5', 'x'], start := 0, current := 0, line := 1,
      column := 0, tokens := [] } 4
    (by decide) (by decide) (by decide) (by decide)

/-- C7 amended: a newline consumed by the main dispatch increments `line`
and resets `column` to 0; a newline consumed inside a multi-line comment
does the same; but a newline consumed inside a string literal increments
`line` while `column` keeps counting up — it is *not* reset. -/
theorem newline_line_column_updates (st : ScanState) (lox : Lox) (fuel : Nat)
    (h : st.source.get? st.current = some '\n') :
    scan_step fuel st lox =
      .ok ({ st with
             start := st.current, current := st.current + 1,
             line := st.line + 1, column := 0 }, lox)
    ∧ multi_comment_loop (fuel + 1) st =
        multi_comment_loop fuel
          { st with
            current := st.current + 1, line := st.line + 1, column := 0 }
    ∧ string_loop (fuel + 1) st lox =
        string_loop fuel
          { st with
            current := st.current + 1, line := st.line + 1,
            column := st.column + 1 } lox := by
  have hdrop : st.source.drop st.current = '\n' :: st.source.drop (st.current + 1) :=
    drop_cons_of_get? h
  have hlt : st.current < st.source.length := lt_length_of_get? h
  refine ⟨?_, ?_, ?_⟩
  · unfold scan_step
    simp only [@advance_of_drop { st with start := st.current } _ _ hdrop]
    rw [show dispatch fuel '\n'
          { st with
            start := st.current, current := st.current + 1,
            column := st.column + 1 } lox =
        ScanRes.ok (none,
          { st with
            start := st.current, current := st.current + 1,
            line := st.line + 1, column := 0 }, lox) from rfl]
  · rw [multi_comment_loop]
    rw [is_at_end_false_of_lt hlt]
    rw [peek_of_drop hdrop]
    simp only [Bool.false_eq_true, reduceIte, advance_of_drop hdrop]
    rw [if_neg (show ¬(some '\n' = some '*') from by decide)]
  · rw [string_loop]
    rw [peek_of_drop hdrop]
    rw [is_at_end_false_of_lt hlt]
    simp only [Bool.false_eq_true, reduceIte,
      @advance_of_drop { st with line := st.line + 1 } _ _ hdrop]

theorem newline_line_column_updates_witness :
    nlSt.source.get? nlSt.current = some '\n'
    ∧ (scan_step 1 nlSt initLox =
        .ok ({ nlSt with
               start := nlSt.current, current := nlSt.current + 1,
               line := nlSt.line + 1, column := 0 }, initLox)
      ∧ multi_comment_loop (1 + 1) nlSt =
          multi_comment_loop 1
            { nlSt with
              current := nlSt.current + 1, line := nlSt.line + 1, column := 0 }
      ∧ string_loop (1 + 1) nlSt initLox =
          string_loop 1
            { nlSt with
              current := nlSt.current + 1, line := nlSt.line + 1,
              column := nlSt.column + 1 } initLox) :=
  ⟨by decide, newline_line_column_updates nlSt initLox 1 (by decide)⟩

/-- The duplicate-terminator arm of the semicolon branch, as an equation
usable under an abstract fuel. -/
theorem dispatch_semicolon_dup (fuel : Nat) (st : ScanState) (lox : Lox) (t : Token)
    (hm : match_char '\n' st = true)
    (h3 : st.tokens.getLast? = some t)
    (h4 : t.lexeme = ";") :
    dispatch fuel ';' st lox =
      match line_comment_loop fuel st with
      | .ok st2 =>
        .ok (none, st2,
          log_language
            (log_language { lox with has_error := true } Severity.error
              ("Expect ';' after expression. Found ';"
                ++ String.mk ((st.source.drop st.current).takeWhile (fun ch => ch ≠ '\n'))
                ++ "' instead.")
              (pos_plain st2.line st2.column))
            Severity.info
            "Please make sure the end of your expression is followed by a single semicolon."
            (pos_plain st2.line st2.column))
      | .panic => .panic
      | .fuelOut => .fuelOut := by
  unfold dispatch
  simp [hm, h3, h4]

/-- C6 amended: the scanner reports a duplicate terminator exactly when a
scanned semicolon is *immediately followed by a literal newline* and the
most recently emitted token has lexeme `";"`; then the flag is set, a
SyntaxError diagnostic (with an always-empty snippet, the rest of the
line after the cursor, which sits on the newline) plus an Info hint are
logged, and the Semicolon token is suppressed. -/
theorem semicolon_newline_duplicate_reported (st : ScanState) (lox : Lox) (t : Token)
    (fuel : Nat)
    (h1 : st.source.get? st.current = some ';')
    (h2 : st.source.get? (st.current + 1) = some '\n')
    (h3 : st.tokens.getLast? = some t)
    (h4 : t.lexeme = ";")
    (hfuel : 1 ≤ fuel) :
    scan_step fuel st lox =
      .ok ({ st with
             start := st.current, current := st.current + 1,
             column := st.column + 1 },
        log_language
          (log_language { lox with has_error := true } Severity.error
            "Expect ';' after expression. Found ';' instead."
            (pos_plain st.line (st.column + 1)))
          Severity.info
          "Please make sure the end of your expression is followed by a single semicolon."
          (pos_plain st.line (st.column + 1))) := by
  cases fuel with
  | zero => omega
  | succ f =>
    have hdrop1 : st.source.drop st.current = ';' :: st.source.drop (st.current + 1) :=
      drop_cons_of_get? h1
    have hdrop2 : ({ st with
        start := st.current, current := st.current + 1,
        column := st.column + 1 } : ScanState).source.drop (st.current + 1) =
        '\n' :: st.source.drop (st.current + 1 + 1) :=
      drop_cons_of_get? h2
    unfold scan_step
    simp only [@advance_of_drop { st with start := st.current } _ _ hdrop1]
    rw [dispatch_semicolon_dup (f + 1)
          { st with
            start := st.current, current := st.current + 1,
            column := st.column + 1 } lox t
          (by rw [match_char_of_drop '\n' hdrop2]; decide) h3 h4]
    rw [show line_comment_loop (f + 1)
          { st with
            start := st.current, current := st.current + 1,
            column := st.column + 1 } =
        ScanRes.ok { st with
                     start := st.current, current := st.current + 1,
                     column := st.column + 1 } from by
      rw [line_comment_loop, peek_of_drop hdrop2]
      simp]
    rw [show ((({ st with
            start := st.current, current := st.current + 1,
            column := st.column + 1 } : ScanState)).source.drop
          (st.current + 1)).takeWhile (fun ch => ch ≠ '\n') = [] from by
      rw [hdrop2]
      simp]
    rw [show ("Expect ';' after expression. Found ';" ++ String.mk []
          ++ "' instead.") = "Expect ';' after expression. Found ';' instead." from by
      decide]

theorem semicolon_newline_duplicate_reported_witness :
    semiSt.source.get? semiSt.current = some ';'
    ∧ semiSt.source.get? (semiSt.current + 1) = some '\n'
    ∧ semiSt.tokens.getLast? = some semiTok
    ∧ semiTok.lexeme = ";"
    ∧ scan_step 1 semiSt initLox =
        .ok ({ semiSt with
               start := semiSt.current, current := semiSt.current + 1,
               column := semiSt.column + 1 },
          log_language
            (log_language { initLox with has_error := true } Severity.error
              "Expect ';' after expression. Found ';' instead."
              (pos_plain semiSt.line (semiSt.column + 1)))
            Severity.info
            "Please make sure the end of your expression is followed by a single semicolon."
            (pos_plain semiSt.line (semiSt.column + 1))) :=
  ⟨by decide, by decide, by decide, by decide,
    semicolon_newline_duplicate_reported semiSt initLox semiTok 1
      (by decide) (by decide) (by decide) (by decide) (by omega)⟩

/-- The string loop on a literal whose body contains no quote character and
no newline, closed by any quote character `q`: it consumes the body and the
closing quote, leaving the driver untouched. -/
theorem string_loop_run :
    ∀ (body rest : List Char) (q : Char) (st : ScanState) (lox : Lox) (fuel : Nat),
      (q = '"' ∨ q = squote ∨ q = backquote) →
      (∀ c ∈ body, c ≠ '"' ∧ c ≠ squote ∧ c ≠ backquote ∧ c ≠ '\n') →
      st.source.drop st.current = body ++ q :: rest →
      body.length + 1 ≤ fuel →
      string_loop fuel st lox =
        .ok ({ st with
               current := st.current + (body.length + 1),
               column := st.column + (body.length + 1) }, lox) := by
  intro body
  induction body with
  | nil =>
    intro rest q st lox fuel hq _ hsrc hfuel
    cases fuel with
    | zero => omega
    | succ f =>
      rw [List.nil_append] at hsrc
      rw [string_loop, peek_of_drop hsrc]
      change (if is_at_end st = true then ScanRes.ok (st, { lox with has_error := true })
              else if q = '\n' then
                string_loop f (advance { st with line := st.line + 1 }).2 lox
              else if q = '"' ∨ q = squote ∨ q = backquote then
                ScanRes.ok ((advance st).2, lox)
              else string_loop f (advance st).2 lox) = _
      rw [is_at_end_false_of_lt (lt_length_of_drop_cons hsrc)]
      rw [if_neg (show ¬(false = true) from by decide)]
      rw [if_neg (show ¬(q = '\n') from by
        rcases hq with h | h | h <;> subst h <;> decide)]
      rw [if_pos hq]
      rw [advance_of_drop hsrc]
      simp
  | cons c body' ih =>
    intro rest q st lox fuel hq hbody hsrc hfuel
    cases fuel with
    | zero => simp at hfuel
    | succ f =>
      rw [List.cons_append] at hsrc
      rw [string_loop, peek_of_drop hsrc]
      change (if is_at_end st = true then ScanRes.ok (st, { lox with has_error := true })
              else if c = '\n' then
                string_loop f (advance { st with line := st.line + 1 }).2 lox
              else if c = '"' ∨ c = squote ∨ c = backquote then
                ScanRes.ok ((advance st).2, lox)
              else string_loop f (advance st).2 lox) = _
      rw [is_at_end_false_of_lt (lt_length_of_drop_cons hsrc)]
      rw [if_neg (show ¬(false = true) from by decide)]
      obtain ⟨hc1, hc2, hc3, hc4⟩ := hbody c (List.mem_cons_self c body')
      rw [if_neg hc4]
      rw [if_neg (show ¬(c = '"' ∨ c = squote ∨ c = backquote) from by
        intro hor
        rcases hor with h | h | h
        · exact hc1 h
        · exact hc2 h
        · exact hc3 h)]
      rw [advance_of_drop hsrc]
      rw [ih rest q _ lox f hq (fun x hx => hbody x (List.mem_cons_of_mem c hx))
            (drop_advance hsrc) (by simp at hfuel; omega)]
      have hcur : st.current + 1 + (body'.length + 1) =
          st.current + ((c :: body').length + 1) := by
        simp only [List.length_cons]
        omega
      have hcol : st.column + 1 + (body'.length + 1) =
          st.column + ((c :: body').length + 1) := by
        simp only [List.length_cons]
        omega
      rw [hcur, hcol]

/-- The string loop when no quote character remains before end of input:
it consumes everything and raises the driver's error flag. -/
theorem string_loop_end :
    ∀ (body : List Char) (st : ScanState) (lox : Lox) (fuel : Nat),
      (∀ c ∈ body, c ≠ '"' ∧ c ≠ squote ∧ c ≠ backquote ∧ c ≠ '\n') →
      st.source.drop st.current = body →
      body.length + 1 ≤ fuel →
      string_loop fuel st lox =
        .ok ({ st with
               current := st.current + body.length,
               column := st.column + body.length },
             { lox with has_error := true }) := by
  intro body
  induction body with
  | nil =>
    intro st lox fuel _ hsrc hfuel
    cases fuel with
    | zero => omega
    | succ f =>
      have hend := is_at_end_true_of_drop_nil hsrc
      rw [string_loop, peek_at_end st hend]
      change (if is_at_end st = true then ScanRes.ok (st, { lox with has_error := true })
              else if ('\x00' : Char) = '\n' then
                string_loop f (advance { st with line := st.line + 1 }).2 lox
              else if ('\x00' : Char) = '"' ∨ ('\x00' : Char) = squote
                  ∨ ('\x00' : Char) = backquote then
                ScanRes.ok ((advance st).2, lox)
              else string_loop f (advance st).2 lox) = _
      rw [if_pos hend]
      simp
  | cons c body' ih =>
    intro st lox fuel hbody hsrc hfuel
    cases fuel with
    | zero => simp at hfuel
    | succ f =>
      rw [string_loop, peek_of_drop hsrc]
      change (if is_at_end st = true then ScanRes.ok (st, { lox with has_error := true })
              else if c = '\n' then
                string_loop f (advance { st with line := st.line + 1 }).2 lox
              else if c = '"' ∨ c = squote ∨ c = backquote then
                ScanRes.ok ((advance st).2, lox)
              else string_loop f (advance st).2 lox) = _
      rw [is_at_end_false_of_lt (lt_length_of_drop_cons hsrc)]
      rw [if_neg (show ¬(false = true) from by decide)]
      obtain ⟨hc1, hc2, hc3, hc4⟩ := hbody c (List.mem_cons_self c body')
      rw [if_neg hc4]
      rw [if_neg (show ¬(c = '"' ∨ c = squote ∨ c = backquote) from by
        intro hor
        rcases hor with h | h | h
        · exact hc1 h
        · exact hc2 h
        · exact hc3 h)]
      rw [advance_of_drop hsrc]
      rw [ih _ lox f (fun x hx => hbody x (List.mem_cons_of_mem c hx))
            (drop_advance hsrc) (by simp at hfuel; omega)]
      have hcur : st.current + 1 + body'.length = st.current + (c :: body').length := by
        simp only [List.length_cons]
        omega
      have hcol : st.column + 1 + body'.length = st.column + (c :: body').length := by
        simp only [List.length_cons]
        omega
      rw [hcur, hcol]

/-- The string branch of the dispatch, as an equation usable under an
abstract fuel, for any of the three opening quote characters. -/
theorem dispatch_string (fuel : Nat) (c : Char) (st : ScanState) (lox : Lox)
    (hc : c = '"' ∨ c = squote ∨ c = backquote) :
    dispatch fuel c st lox =
      match string_loop fuel st lox with
      | .ok (st, lox) =>
        if lox.has_error then
          .ok (none, st,
            log_language lox Severity.error (string_error_msg c)
              (pos_line (st.line - 1) (st.column + 1)))
        else .ok (some TokenType.String, st, lox)
      | .panic => .panic
      | .fuelOut => .fuelOut := by
  rcases hc with h | h | h <;> subst h <;> (unfold dispatch; simp [squote, backquote])

theorem take_len_append {α} (l m : List α) : (l ++ m).take l.length = l := by
  induction l with
  | nil => rfl
  | cons x xs ih => simp [ih]

theorem take_quoted_lexeme (q1 q2 : Char) (body rest : List Char) :
    (q1 :: (body ++ q2 :: rest)).take (body.length + 2) = q1 :: (body ++ [q2]) := by
  rw [show body ++ q2 :: rest = (body ++ [q2]) ++ rest from by simp]
  rw [show (q1 :: ((body ++ [q2]) ++ rest)) = (q1 :: (body ++ [q2])) ++ rest from by simp]
  rw [show body.length + 2 = (q1 :: (body ++ [q2])).length from by simp]
  exact take_len_append _ _

/-- A string literal `q1 body q2` (any quote characters, quote-free and
newline-free body) scanned with a clean error flag: one scan step emits a
String token whose lexeme is the body, quotes stripped. -/
theorem scan_step_string_terminated (q1 q2 : Char) (body rest : List Char)
    (st : ScanState) (lox : Lox) (fuel : Nat)
    (hq1 : q1 = '"' ∨ q1 = squote ∨ q1 = backquote)
    (hq2 : q2 = '"' ∨ q2 = squote ∨ q2 = backquote)
    (hbody : ∀ c ∈ body, c ≠ '"' ∧ c ≠ squote ∧ c ≠ backquote ∧ c ≠ '\n')
    (hsrc : st.source.drop st.current = q1 :: (body ++ q2 :: rest))
    (hfuel : body.length + 2 ≤ fuel)
    (herr : lox.has_error = false) :
    scan_step fuel st lox =
      .ok (add_token TokenType.String (String.mk body)
            { st with
              start := st.current,
              current := st.current + (body.length + 2),
              column := st.column + (body.length + 2) }, lox) := by
  unfold scan_step
  simp only [@advance_of_drop { st with start := st.current } _ _ hsrc]
  rw [dispatch_string fuel q1 _ lox hq1]
  rw [string_loop_run body rest q2 _ lox fuel hq2 hbody
        (@drop_advance { st with start := st.current } _ _ hsrc) (by omega)]
  simp only [herr, Bool.false_eq_true, reduceIte]
  unfold current_lexeme
  simp only []
  rw [show st.current + 1 + (body.length + 1) - st.current = body.length + 2 from by omega]
  rw [show ({ st with start := st.current } : ScanState).source.drop st.current =
        q1 :: (body ++ q2 :: rest) from hsrc]
  rw [take_quoted_lexeme]
  simp only [List.drop_succ_cons, List.drop_zero, List.dropLast_concat]
  rw [show st.current + 1 + (body.length + 1) = st.current + (body.length + 2) from by omega]
  rw [show st.column + 1 + (body.length + 1) = st.column + (body.length + 2) from by omega]

/-- The same terminated string literal scanned while the shared error flag
is already raised: the String token is withheld and a spurious string
diagnostic is appended. -/
theorem scan_step_string_prior_error (q1 q2 : Char) (body rest : List Char)
    (st : ScanState) (lox : Lox) (fuel : Nat)
    (hq1 : q1 = '"' ∨ q1 = squote ∨ q1 = backquote)
    (hq2 : q2 = '"' ∨ q2 = squote ∨ q2 = backquote)
    (hbody : ∀ c ∈ body, c ≠ '"' ∧ c ≠ squote ∧ c ≠ backquote ∧ c ≠ '\n')
    (hsrc : st.source.drop st.current = q1 :: (body ++ q2 :: rest))
    (hfuel : body.length + 2 ≤ fuel)
    (herr : lox.has_error = true) :
    scan_step fuel st lox =
      .ok ({ st with
             start := st.current,
             current := st.current + (body.length + 2),
             column := st.column + (body.length + 2) },
        log_language lox Severity.error (string_error_msg q1)
          (pos_line (st.line - 1) (st.column + (body.length + 2) + 1))) := by
  unfold scan_step
  simp only [@advance_of_drop { st with start := st.current } _ _ hsrc]
  rw [dispatch_string fuel q1 _ lox hq1]
  rw [string_loop_run body rest q2 _ lox fuel hq2 hbody
        (@drop_advance { st with start := st.current } _ _ hsrc) (by omega)]
  simp only [herr, reduceIte]
  rw [show st.current + 1 + (body.length + 1) = st.current + (body.length + 2) from by omega]
  rw [show st.column + 1 + (body.length + 1) = st.column + (body.length + 2) from by omega]

/-- A string literal opened by `q1` with no further quote character before
end of input: one scan step consumes everything, raises the error flag,
logs the string diagnostic, and emits no token. -/
theorem scan_step_string_unterminated (q1 : Char) (body : List Char)
    (st : ScanState) (lox : Lox) (fuel : Nat)
    (hq1 : q1 = '"' ∨ q1 = squote ∨ q1 = backquote)
    (hbody : ∀ c ∈ body, c ≠ '"' ∧ c ≠ squote ∧ c ≠ backquote ∧ c ≠ '\n')
    (hsrc : st.source.drop st.current = q1 :: body)
    (hfuel : body.length + 2 ≤ fuel) :
    scan_step fuel st lox =
      .ok ({ st with
             start := st.current,
             current := st.current + (body.length + 1),
             column := st.column + (body.length + 1) },
        log_language { lox with has_error := true } Severity.error (string_error_msg q1)
          (pos_line (st.line - 1) (st.column + (body.length + 1) + 1))) := by
  unfold scan_step
  simp only [@advance_of_drop { st with start := st.current } _ _ hsrc]
  rw [dispatch_string fuel q1 _ lox hq1]
  rw [string_loop_end body _ lox fuel hbody
        (@drop_advance { st with start := st.current } _ _ hsrc) (by omega)]
  simp only [reduceIte]
  rw [show st.current + 1 + body.length = st.current + (body.length + 1) from by omega]
  rw [show st.column + 1 + body.length = st.column + (body.length + 1) from by omega]

/-- C4 amended: after the string loop the scanner tests the *shared* error
flag, so: (1) a terminated literal scanned with a clean flag yields a
String token with the quotes stripped; (2) the same terminated literal
scanned with the flag already raised yields *no* token, only a spurious
diagnostic; (3) when the input ends before any closing quote, the flag is
raised and no token is emitted. -/
theorem string_token_emission_cases (q1 q2 : Char) (body rest : List Char)
    (st : ScanState) (lox : Lox) (fuel : Nat)
    (hq1 : q1 = '"' ∨ q1 = squote ∨ q1 = backquote)
    (hq2 : q2 = '"' ∨ q2 = squote ∨ q2 = backquote)
    (hbody : ∀ c ∈ body, c ≠ '"' ∧ c ≠ squote ∧ c ≠ backquote ∧ c ≠ '\n')
    (hfuel : body.length + 2 ≤ fuel) :
    (st.source.drop st.current = q1 :: (body ++ q2 :: rest) →
      lox.has_error = false →
      scan_step fuel st lox =
        .ok (add_token TokenType.String (String.mk body)
              { st with
                start := st.current,
                current := st.current + (body.length + 2),
                column := st.column + (body.length + 2) }, lox))
    ∧ (st.source.drop st.current = q1 :: (body ++ q2 :: rest) →
      lox.has_error = true →
      scan_step fuel st lox =
        .ok ({ st with
               start := st.current,
               current := st.current + (body.length + 2),
               column := st.column + (body.length + 2) },
          log_language lox Severity.error (string_error_msg q1)
            (pos_line (st.line - 1) (st.column + (body.length + 2) + 1))))
    ∧ (st.source.drop st.current = q1 :: body →
      scan_step fuel st lox =
        .ok ({ st with
               start := st.current,
               current := st.current + (body.length + 1),
               column := st.column + (body.length + 1) },
          log_language { lox with has_error := true } Severity.error (string_error_msg q1)
            (pos_line (st.line - 1) (st.column + (body.length + 1) + 1)))) :=
  ⟨fun hsrc herr =>
      scan_step_string_terminated q1 q2 body rest st lox fuel hq1 hq2 hbody hsrc hfuel herr,
    fun hsrc herr =>
      scan_step_string_prior_error q1 q2 body rest st lox fuel hq1 hq2 hbody hsrc hfuel herr,
    fun hsrc =>
      scan_step_string_unterminated q1 body st lox fuel hq1 hbody hsrc hfuel⟩

theorem string_token_emission_cases_witness :
    (('"' : Char) = '"' ∨ ('"' : Char) = squote ∨ ('"' : Char) = backquote)
    ∧ (∀ c ∈ ['a'], c ≠ '"' ∧ c ≠ squote ∧ c ≠ backquote ∧ c ≠ '\n')
    ∧ ['a'].length + 2 ≤ 3
    ∧ (initState ['"', 'a', '"']).source.drop (initState ['"', 'a', '"']).current
        = '"' :: (['a'] ++ '"' :: [])
    ∧ initLox.has_error = false
    ∧ scan_step 3 (initState ['"', 'a', '"']) initLox =
        .ok (add_token TokenType.String (String.mk ['a'])
              { initState ['"', 'a', '"'] with
                start := (initState ['"', 'a', '"']).current,
                current := (initState ['"', 'a', '"']).current + (['a'].length + 2),
                column := (initState ['"', 'a', '"']).column + (['a'].length + 2) },
            initLox) :=
  ⟨by decide, by decide, by decide, by decide, by decide,
    (string_token_emission_cases '"' '"' ['a'] [] (initState ['"', 'a', '"']) initLox 3
        (by decide) (by decide) (by decide) (by decide)).1 (by decide) (by decide)⟩

theorem is_at_end_true_of_le {st : ScanState} (h : st.source.length ≤ st.current) :
    is_at_end st = true := by
  simp [is_at_end]
  exact h

/-- One unfolding of the scan loop, stated as a plain equation. -/
theorem scan_tokens_succ (fuel : Nat) (st : ScanState) (lox : Lox) :
    scan_tokens (fuel + 1) st lox =
      if is_at_end st then .ok (add_token TokenType.Eof "EOF" st, lox)
      else
        match scan_step fuel st lox with
        | .ok (st, lox) => scan_tokens fuel st lox
        | .panic => .panic
        | .fuelOut => .fuelOut := rfl

/-- C3 amended: a string literal opened with any of the three quote
characters is closed by the *next* occurrence of *any* quote character —
scanning `q1 body q2` (quote-free, newline-free body) yields exactly one
String token whose lexeme is the body, for every combination of opening
and closing quote characters. -/
theorem string_any_quote_closes (q1 q2 : Char) (body : List Char)
    (hq1 : q1 = '"' ∨ q1 = squote ∨ q1 = backquote)
    (hq2 : q2 = '"' ∨ q2 = squote ∨ q2 = backquote)
    (hbody : ∀ c ∈ body, c ≠ '"' ∧ c ≠ squote ∧ c ≠ backquote ∧ c ≠ '\n') :
    scanLexemes (q1 :: (body ++ [q2])) =
      some [(TokenType.String, String.mk body), (TokenType.Eof, "EOF")] := by
  have hlen : (q1 :: (body ++ [q2])).length = body.length + 2 := by simp
  obtain ⟨F, hF⟩ : ∃ F, 2 * (q1 :: (body ++ [q2])).length + 10 = F + 1 :=
    ⟨2 * (q1 :: (body ++ [q2])).length + 9, by omega⟩
  obtain ⟨G, hG⟩ : ∃ G, F = G + 1 := ⟨F - 1, by omega⟩
  have hrun : runScan (q1 :: (body ++ [q2])) =
      .ok (add_token TokenType.Eof "EOF"
            (add_token TokenType.String (String.mk body)
              { initState (q1 :: (body ++ [q2])) with
                start := (initState (q1 :: (body ++ [q2]))).current,
                current := (initState (q1 :: (body ++ [q2]))).current + (body.length + 2),
                column := (initState (q1 :: (body ++ [q2]))).column + (body.length + 2) }),
          initLox) := by
    unfold runScan
    rw [hF, scan_tokens_succ]
    rw [@is_at_end_false_of_lt (initState (q1 :: (body ++ [q2]))) (by simp [initState])]
    rw [if_neg (show ¬(false = true) from by decide)]
    rw [scan_step_string_terminated q1 q2 body [] (initState (q1 :: (body ++ [q2]))) initLox
          F hq1 hq2 hbody (by simp [initState]) (by omega) rfl]
    change scan_tokens F _ _ = _
    rw [hG, scan_tokens_succ]
    rw [is_at_end_true_of_le (by simp [initState, add_token])]
    rw [if_pos rfl]
  unfold scanLexemes
  rw [hrun]
  simp [add_token, initState]

theorem string_any_quote_closes_witness :
    (('"' : Char) = '"' ∨ ('"' : Char) = squote ∨ ('"' : Char) = backquote)
    ∧ (squote = '"' ∨ squote = squote ∨ squote = backquote)
    ∧ (∀ c ∈ ['a'], c ≠ '"' ∧ c ≠ squote ∧ c ≠ backquote ∧ c ≠ '\n')
    ∧ scanLexemes ('"' :: (['a'] ++ [squote])) =
        some [(TokenType.String, String.mk ['a']), (TokenType.Eof, "EOF")] :=
  ⟨by decide, by decide, by decide,
    string_any_quote_closes '"' squote ['a'] (by decide) (by decide) (by decide)⟩

/-- The string loop never lowers the error flag. -/
theorem string_loop_error_mono :
    ∀ (fuel : Nat) (st st' : ScanState) (lox lox' : Lox),
      string_loop fuel st lox = .ok (st', lox') →
      lox.has_error = true → lox'.has_error = true := by
  intro fuel
  induction fuel with
  | zero =>
    intro st st' lox lox' h
    simp [string_loop] at h
  | succ f ih =>
    intro st st' lox lox' h he
    rw [string_loop] at h
    split at h
    · cases h
      exact he
    · split at h
      · cases h
        rfl
      · split at h
        · exact ih _ _ _ _ h he
        · split at h
          · cases h
            exact he
          · exact ih _ _ _ _ h he

set_option maxHeartbeats 2000000 in
set_option linter.unreachableTactic false in
/-- The dispatch never lowers the error flag. -/
theorem dispatch_error_mono (fuel : Nat) (c : Char) (st st' : ScanState)
    (lox lox' : Lox) (o : Option TokenType)
    (h : dispatch fuel c st lox = .ok (o, st', lox'))
    (he : lox.has_error = true) : lox'.has_error = true := by
  unfold dispatch at h
  by_cases hc1 : c = '('
  · rw [if_pos hc1] at h
    cases h
    first | exact he | rfl
  rw [if_neg hc1] at h
  by_cases hc2 : c = ')'
  · rw [if_pos hc2] at h
    cases h
    first | exact he | rfl
  rw [if_neg hc2] at h
  by_cases hc3 : c = '{'
  · rw [if_pos hc3] at h
    cases h
    first | exact he | rfl
  rw [if_neg hc3] at h
  by_cases hc4 : c = '}'
  · rw [if_pos hc4] at h
    cases h
    first | exact he | rfl
  rw [if_neg hc4] at h
  by_cases hc5 : c = '.'
  · rw [if_pos hc5] at h
    iterate 5 (all_goals try split at h)
    all_goals first
      | (cases h; exact he)
      | (cases h; rfl)
      | (cases h; done)
      | (cases h; simp only [log_language_has_error]; assumption)
      | (rename_i hA hB; cases h;
          first
            | exact string_loop_error_mono _ _ _ _ _ hA he
            | exact string_loop_error_mono _ _ _ _ _ hB he)
  rw [if_neg hc5] at h
  by_cases hc6 : c = '-'
  · rw [if_pos hc6] at h
    cases h
    first | exact he | rfl
  rw [if_neg hc6] at h
  by_cases hc7 : c = '*'
  · rw [if_pos hc7] at h
    cases h
    first | exact he | rfl
  rw [if_neg hc7] at h
  by_cases hc8 : c = '+'
  · rw [if_pos hc8] at h
    cases h
    first | exact he | rfl
  rw [if_neg hc8] at h
  by_cases hc9 : c = '%'
  · rw [if_pos hc9] at h
    cases h
    first | exact he | rfl
  rw [if_neg hc9] at h
  by_cases hc10 : c = '/'
  · rw [if_pos hc10] at h
    iterate 5 (all_goals try split at h)
    all_goals first
      | (cases h; exact he)
      | (cases h; rfl)
      | (cases h; done)
      | (cases h; simp only [log_language_has_error]; assumption)
      | (rename_i hA hB; cases h;
          first
            | exact string_loop_error_mono _ _ _ _ _ hA he
            | exact string_loop_error_mono _ _ _ _ _ hB he)
  rw [if_neg hc10] at h
  by_cases hc11 : c = ';'
  · rw [if_pos hc11] at h
    iterate 5 (all_goals try split at h)
    all_goals first
      | (cases h; exact he)
      | (cases h; rfl)
      | (cases h; done)
      | (cases h; simp only [log_language_has_error]; assumption)
      | (rename_i hA hB; cases h;
          first
            | exact string_loop_error_mono _ _ _ _ _ hA he
            | exact string_loop_error_mono _ _ _ _ _ hB he)
  rw [if_neg hc11] at h
  by_cases hc12 : c = ','
  · rw [if_pos hc12] at h
    cases h
    first | exact he | rfl
  rw [if_neg hc12] at h
  by_cases hc13 : c = '!'
  · rw [if_pos hc13] at h
    iterate 5 (all_goals try split at h)
    all_goals first
      | (cases h; exact he)
      | (cases h; rfl)
      | (cases h; done)
      | (cases h; simp only [log_language_has_error]; assumption)
      | (rename_i hA hB; cases h;
          first
            | exact string_loop_error_mono _ _ _ _ _ hA he
            | exact string_loop_error_mono _ _ _ _ _ hB he)
  rw [if_neg hc13] at h
  by_cases hc14 : c = '='
  · rw [if_pos hc14] at h
    iterate 5 (all_goals try split at h)
    all_goals first
      | (cases h; exact he)
      | (cases h; rfl)
      | (cases h; done)
      | (cases h; simp only [log_language_has_error]; assumption)
      | (rename_i hA hB; cases h;
          first
            | exact string_loop_error_mono _ _ _ _ _ hA he
            | exact string_loop_error_mono _ _ _ _ _ hB he)
  rw [if_neg hc14] at h
  by_cases hc15 : c = '<'
  · rw [if_pos hc15] at h
    iterate 5 (all_goals try split at h)
    all_goals first
      | (cases h; exact he)
      | (cases h; rfl)
      | (cases h; done)
      | (cases h; simp only [log_language_has_error]; assumption)
      | (rename_i hA hB; cases h;
          first
            | exact string_loop_error_mono _ _ _ _ _ hA he
            | exact string_loop_error_mono _ _ _ _ _ hB he)
  rw [if_neg hc15] at h
  by_cases hc16 : c = '>'
  · rw [if_pos hc16] at h
    iterate 5 (all_goals try split at h)
    all_goals first
      | (cases h; exact he)
      | (cases h; rfl)
      | (cases h; done)
      | (cases h; simp only [log_language_has_error]; assumption)
      | (rename_i hA hB; cases h;
          first
            | exact string_loop_error_mono _ _ _ _ _ hA he
            | exact string_loop_error_mono _ _ _ _ _ hB he)
  rw [if_neg hc16] at h
  by_cases hc17 : c = ' ' ∨ c = '\r' ∨ c = '\t'
  · rw [if_pos hc17] at h
    cases h
    first | exact he | rfl
  rw [if_neg hc17] at h
  by_cases hc18 : c = '"' ∨ c = squote ∨ c = backquote
  · rw [if_pos hc18] at h
    iterate 5 (all_goals try split at h)
    all_goals first
      | (cases h; exact he)
      | (cases h; rfl)
      | (cases h; done)
      | (cases h; simp only [log_language_has_error]; assumption)
      | (rename_i hA hB; cases h;
          first
            | exact string_loop_error_mono _ _ _ _ _ hA he
            | exact string_loop_error_mono _ _ _ _ _ hB he)
  rw [if_neg hc18] at h
  by_cases hc19 : c = '\n'
  · rw [if_pos hc19] at h
    cases h
    first | exact he | rfl
  rw [if_neg hc19] at h
  by_cases hc20 : ('a' ≤ c ∧ c ≤ 'z') ∨ ('A' ≤ c ∧ c ≤ 'Z') ∨ c = '_'
  · rw [if_pos hc20] at h
    iterate 5 (all_goals try split at h)
    all_goals first
      | (cases h; exact he)
      | (cases h; rfl)
      | (cases h; done)
      | (cases h; simp only [log_language_has_error]; assumption)
      | (rename_i hA hB; cases h;
          first
            | exact string_loop_error_mono _ _ _ _ _ hA he
            | exact string_loop_error_mono _ _ _ _ _ hB he)
  rw [if_neg hc20] at h
  by_cases hc21 : ('0' ≤ c ∧ c ≤ '9')
  · rw [if_pos hc21] at h
    iterate 5 (all_goals try split at h)
    all_goals first
      | (cases h; exact he)
      | (cases h; rfl)
      | (cases h; done)
      | (cases h; simp only [log_language_has_error]; assumption)
      | (rename_i hA hB; cases h;
          first
            | exact string_loop_error_mono _ _ _ _ _ hA he
            | exact string_loop_error_mono _ _ _ _ _ hB he)
  rw [if_neg hc21] at h
  cases h
  rfl

/-- One scan step never lowers the error flag. -/
theorem scan_step_error_mono (fuel : Nat) (st st' : ScanState) (lox lox' : Lox)
    (h : scan_step fuel st lox = .ok (st', lox'))
    (he : lox.has_error = true) : lox'.has_error = true := by
  unfold scan_step at h
  simp only [] at h
  iterate 4 (all_goals try split at h)
  all_goals try (cases h; done)
  all_goals (cases h; exact dispatch_error_mono _ _ _ _ _ _ _ (by assumption) he)

/-- C10: every write to `has_error` during a scan stores `true`, so the
flag is monotone: if it is raised when `scan_tokens` is entered (or at any
point during the scan), it is still raised in the driver state the scan
returns. -/
theorem has_error_monotone :
    ∀ (fuel : Nat) (st st' : ScanState) (lox lox' : Lox),
      scan_tokens fuel st lox = .ok (st', lox') →
      lox.has_error = true → lox'.has_error = true := by
  intro fuel
  induction fuel with
  | zero =>
    intro st st' lox lox' h
    simp [scan_tokens] at h
  | succ f ih =>
    intro st st' lox lox' h he
    rw [scan_tokens_succ] at h
    split at h
    · cases h
      exact he
    · split at h
      · rename_i hstep
        exact ih _ _ _ _ h (scan_step_error_mono _ _ _ _ _ hstep he)
      · cases h
      · cases h

theorem has_error_monotone_witness :
    scan_tokens 5 (initState ['a']) loxT = ScanRes.ok (stA, loxT)
    ∧ loxT.has_error = true :=
  ⟨by decide, has_error_monotone 5 (initState ['a']) stA loxT loxT (by decide) rfl⟩
